import Mathlib

/-
Verification of the networking and frame-constant subsystems of
StencilDemo-Networking (src/StencilApp.cpp) against its specification.

Machine integers are modelled as Nat with explicit bounds where overflow
matters; float positions are modelled as exact rationals; the in-place
mutation of the C++ code is modelled by explicit state passing.
-/

namespace StencilDemo

/-- The Packet struct (StencilApp.cpp lines 25-51): packetType and
movementState and direction are uint8_t, playerId is uint16_t, timestamp is
uint32_t, name is a std::string. -/
structure Packet where
  packetType : ℕ
  playerId : ℕ
  movementState : ℕ
  direction : ℕ
  timestamp : ℕ
  name : String
  deriving Repr, DecidableEq

/-- One byte read of ParsePacket: std::stoi(data.substr(i, 1)) succeeds with
the digit value exactly when byte i exists and is a decimal digit; a missing
byte raises std::out_of_range or std::invalid_argument and a non-digit byte
raises std::invalid_argument, both modelled as none. -/
def stoiAt (buf : List Char) (i : ℕ) : Option ℕ :=
  match buf[i]? with
  | some c => if c.isDigit then some (c.toNat - 48) else none
  | none => none

/-- Value of a most-significant-first list of decimal digit characters, as
computed by std::stoul on that digit run. -/
def digitsToNat (l : List Char) : ℕ :=
  l.foldl (fun a c => 10 * a + (c.toNat - 48)) 0

/-- The digit run that ParsePacket hands to std::stoul (line 273-277): the
maximal run of decimal digit bytes starting at offset 4. -/
def tsRun (buf : List Char) : List Char :=
  (buf.drop 4).takeWhile Char.isDigit

/-- True exactly when the buffer has at least 4 leading decimal digit bytes. -/
def leadingDigits4 (buf : List Char) : Bool :=
  ((buf.take 4).length == 4) && (buf.take 4).all Char.isDigit

/-- The field-assignment sequence of StencilApp::ParsePacket (lines 264-279),
abstracted over the four single-byte reads and the timestamp digit run. The
C++ routine assigns the fields of the output packet in place one at a time
and throws on the first failing read, so on failure the fields assigned
before the throw have already been stored; the Bool is true exactly when the
routine throws. std::stoul on MSVC (32-bit unsigned long) throws
std::out_of_range when the digit run exceeds 2^32 - 1 and
std::invalid_argument when the run is empty. -/
def parseFields (f0 f1 f2 f3 : Option ℕ) (ts : List Char) (p0 : Packet) :
    Packet × Bool :=
  match f0 with
  | none => (p0, true)
  | some v0 =>
    let p1 := { p0 with packetType := v0 }
    match f1 with
    | none => (p1, true)
    | some v1 =>
      let p2 := { p1 with playerId := v1 }
      match f2 with
      | none => (p2, true)
      | some v2 =>
        let p3 := { p2 with movementState := v2 }
        match f3 with
        | none => (p3, true)
        | some v3 =>
          let p4 := { p3 with direction := v3 }
          if ts = [] then (p4, true)
          else if digitsToNat ts < 2 ^ 32 then
            ({ p4 with timestamp := digitsToNat ts }, false)
          else (p4, true)

/-- StencilApp::ParsePacket (lines 264-279). The name field is never
assigned. -/
def ParsePacket (buf : List Char) (p0 : Packet) : Packet × Bool :=
  parseFields (stoiAt buf 0) (stoiAt buf 1) (stoiAt buf 2) (stoiAt buf 3)
    (tsRun buf) p0

/-- The decimal digit character for d (0 ≤ d ≤ 9). -/
def decDigitChar (d : ℕ) : Char := Char.ofNat (48 + d)

/-- Fuel-driven accumulator loop producing the decimal digits of n, most
significant first, in front of acc; fuel ≥ n suffices. -/
def natToDecAux : ℕ → ℕ → List Char → List Char
  | 0, _, acc => acc
  | _ + 1, 0, acc => acc
  | fuel + 1, n + 1, acc =>
      natToDecAux fuel ((n + 1) / 10) (decDigitChar ((n + 1) % 10) :: acc)

/-- The decimal rendering of a natural number, as produced by
std::to_string on a non-negative integer value. -/
def natToDecimal (n : ℕ) : List Char :=
  if n = 0 then [decDigitChar 0] else natToDecAux n n []

/-- The wire bytes built by StencilApp::SendPacket (lines 696-708):
std::to_string of packetType, playerId, movementState, direction and
timestamp concatenated, followed by the application-level name variable
(declared outside this translation unit) - not packet.name. -/
def SendPacketBytes (packet : Packet) (appName : List Char) : List Char :=
  natToDecimal packet.packetType ++ natToDecimal packet.playerId ++
    natToDecimal packet.movementState ++ natToDecimal packet.direction ++
      natToDecimal packet.timestamp ++ appName

/-- True when the list is empty or starts with a non-digit byte. -/
def headNotDigitB : List Char → Bool
  | [] => true
  | c :: _ => !c.isDigit

/-- packetComparator (lines 281-283): lhs.timestamp > rhs.timestamp. -/
def packetComparator (lhs rhs : Packet) : Bool :=
  decide (lhs.timestamp > rhs.timestamp)

/-- Pop semantics of std::priority_queue over packetComparator: top() is the
element that compares greatest, i.e. the one with the smallest timestamp.
The queue contents are modelled as a list; popping removes a
minimal-timestamp element. -/
def popMin : List Packet → Option (Packet × List Packet)
  | [] => none
  | p :: rest =>
    match popMin rest with
    | none => some (p, [])
    | some (m, r) =>
      if packetComparator p m then some (m, p :: r) else some (p, rest)

/-- The shared state guarded by movementMutex: lastPacket (line 175) and the
cached movementState member (line 176). -/
structure RecvState where
  lastPacket : Packet
  movementState : ℕ
  deriving Repr, DecidableEq

/-- One iteration of the receiver loop body in
StencilApp::StartAsyncMessageReceiver (lines 296-307) for one received
buffer. ParsePacket writes into this->lastPacket in place; when it throws,
the fields parsed before the throw have already been stored and the uncaught
exception leaves the loop (the Bool is true exactly in that case). Nothing
is ever pushed onto packetQueue. -/
def receiverStep (s : RecvState) (buf : List Char) : RecvState × Bool :=
  let pr := ParsePacket buf s.lastPacket
  if pr.2 then ({ s with lastPacket := pr.1 }, true)
  else ({ lastPacket := pr.1,
          movementState := if pr.1.movementState = 0 then 0 else 1 }, false)

/-- The sequence of packets the receiver makes current (the successive
lastPacket values), for a list of buffers in arrival order; a throwing
iteration ends the loop. -/
def receiverTrace (s : RecvState) : List (List Char) → List Packet
  | [] => []
  | buf :: rest =>
    let sr := receiverStep s buf
    if sr.2 then [] else sr.1.lastPacket :: receiverTrace sr.1 rest

/-- A world-space position, one XMFLOAT3, with exact coordinates. -/
structure Vec3 where
  x : ℚ
  y : ℚ
  z : ℚ
  deriving Repr, DecidableEq

/-- DetermineDirection (lines 554-564). -/
def DetermineDirection (A D W S : Bool) : ℕ :=
  if W && !A && !D && !S then 1
  else if S && !A && !D && !W then 2
  else if D && !W && !S && !A then 3
  else if A && !W && !S && !D then 4
  else if W && D then 5
  else if W && A then 6
  else if S && A then 7
  else if S && D then 8
  else 0

/-- The (dx, dy) applied by the switch of
StencilApp::UpdatePosition(Packet, float) (lines 593-625); direction codes
outside 0..8 fall through the switch and move nothing. -/
def dirDelta (dir : ℕ) (dt : ℚ) : ℚ × ℚ :=
  match dir with
  | 1 => (0, dt)
  | 2 => (0, -dt)
  | 3 => (dt, 0)
  | 4 => (-dt, 0)
  | 5 => (dt, dt)
  | 6 => (-dt, dt)
  | 7 => (-dt, -dt)
  | 8 => (dt, -dt)
  | _ => (0, 0)

/-- The movement-relevant application state: the two skull positions (lines
168-169), the network id and the player selector (line 104; id is declared
outside this translation unit), and the movementMutex-guarded fields. -/
structure MoveState where
  skull1 : Vec3
  skull2 : Vec3
  id : ℕ
  player : ℕ
  lastPacket : Packet
  movementState : ℕ
  deriving Repr, DecidableEq

/-- StencilApp::UpdatePosition(Packet, float) (lines 589-634): the skull
pointer is chosen by packet.playerId; the switch and the y clamp run only
when packet.movementState == 1 and packet.playerId != id; lastPacket is
assigned at the end unconditionally. -/
def updatePositionPacket (s : MoveState) (packet : Packet) (dt : ℚ) :
    MoveState :=
  if packet.movementState = 1 ∧ packet.playerId ≠ s.id then
    let d := dirDelta packet.direction dt
    if packet.playerId = 1 then
      { s with
        skull1 := { x := s.skull1.x + d.1, y := max (s.skull1.y + d.2) 0,
                    z := s.skull1.z },
        lastPacket := packet }
    else
      { s with
        skull2 := { x := s.skull2.x + d.1, y := max (s.skull2.y + d.2) 0,
                    z := s.skull2.z },
        lastPacket := packet }
  else { s with lastPacket := packet }

/-- StencilApp::UpdatePosition(bool, bool, bool, bool, float, XMFLOAT3*)
(lines 571-580): the local skull, selected by the player member, moves by
1.0 * dt per held key axis and its y is clamped to at least 0. -/
def updatePositionKeys (s : MoveState) (A D W S : Bool) (dt : ℚ) :
    MoveState :=
  let sk := if s.player = 1 then s.skull1 else s.skull2
  let x1 := if A then sk.x - 1 * dt else sk.x
  let x2 := if D then x1 + 1 * dt else x1
  let y1 := if W then sk.y + 1 * dt else sk.y
  let y2 := if S then y1 - 1 * dt else y1
  let sk2 : Vec3 := { x := x2, y := max y2 0, z := sk.z }
  if s.player = 1 then { s with skull1 := sk2 } else { s with skull2 := sk2 }

/-- StencilApp::UpdatePosition() (lines 582-587): re-clamps the local
skull's y without translating anything. -/
def updatePositionNoMove (s : MoveState) : MoveState :=
  if s.player = 1 then
    { s with skull1 := { s.skull1 with y := max s.skull1.y 0 } }
  else
    { s with skull2 := { s.skull2 with y := max s.skull2.y 0 } }

/-- StencilApp::ContinuousMovement (lines 317-326): under movementMutex,
apply the cached packet when the cached movementState is 1, otherwise the
no-movement path. -/
def ContinuousMovement (s : MoveState) (dt : ℚ) : MoveState :=
  if s.movementState = 1 then updatePositionPacket s s.lastPacket dt
  else updatePositionNoMove s

/-- The packet-emission logic of StencilApp::OnKeyboardInput (lines
637-694): wasMoving and prevDirection are the process-wide flags (lines 552
and 569); the result is the packet handed to SendPacket this tick, if any.
The emitted packets never assign name, so it stays the default empty
string. -/
def OnKeyboardInputEmission (wasMoving : Bool) (prevDirection : ℕ)
    (A D W S : Bool) (selfId now : ℕ) : Option Packet :=
  let newDirection := DetermineDirection A D W S
  let justStartedMoving := !wasMoving && (A || D || W || S)
  let justStoppedMoving := wasMoving && !(A || D || W || S)
  let directionChanged := wasMoving && (newDirection != prevDirection)
  if justStartedMoving || directionChanged then
    some { packetType := 0, playerId := selfId, movementState := 1,
           direction := newDirection, timestamp := now, name := "" }
  else if justStoppedMoving then
    some { packetType := 0, playerId := selfId, movementState := 0,
           direction := 0, timestamp := now, name := "" }
  else none

/-- gNumFrameResources (line 23). -/
abbrev gNumFrameResources : ℕ := 3

/-- One render item together with its per-frame object-constant slots: the
logical world transform, the NumFramesDirty counter (line 70), and for each
of the gNumFrameResources frame resources the world value last copied into
that frame's ObjectCB slot at this item's ObjCBIndex. -/
structure RItemCB (α : Type) where
  world : α
  numFramesDirty : ℕ
  slots : Fin gNumFrameResources → α

/-- StencilApp::UpdateObjectCBs (lines 765-787) restricted to one render
item, on a tick that consumes frame resource f: when NumFramesDirty > 0 the
(transposed) world constants are copied into that frame's slot and the
counter is decremented by one; otherwise nothing happens. -/
def updateObjectCB {α : Type} (f : Fin gNumFrameResources) (r : RItemCB α) :
    RItemCB α :=
  if 0 < r.numFramesDirty then
    { r with slots := Function.update r.slots f r.world,
             numFramesDirty := r.numFramesDirty - 1 }
  else r

/-- The transform mutation performed by StencilApp::UpdateSkullWorldMatrix
on each of its three items (lines 728-734): store the new world value and
reset NumFramesDirty to gNumFrameResources. -/
def mutateWorld {α : Type} (w : α) (r : RItemCB α) : RItemCB α :=
  { r with world := w, numFramesDirty := gNumFrameResources }

/-- A 4x4 matrix in DirectXMath row-vector convention, with exact
entries. -/
structure Mat4 where
  m00 : ℚ
  m01 : ℚ
  m02 : ℚ
  m03 : ℚ
  m10 : ℚ
  m11 : ℚ
  m12 : ℚ
  m13 : ℚ
  m20 : ℚ
  m21 : ℚ
  m22 : ℚ
  m23 : ℚ
  m30 : ℚ
  m31 : ℚ
  m32 : ℚ
  m33 : ℚ
  deriving Repr, DecidableEq

/-- XMMatrixReflect for an already-normalized plane (a, b, c, d): the matrix
I - 2 P Pn built by DirectXMath. The source passes the unit plane
(0, 0, 1, 0), for which XMPlaneNormalize is the identity. -/
def XMMatrixReflect (a b c d : ℚ) : Mat4 where
  m00 := 1 - 2 * a * a
  m01 := -(2 * a * b)
  m02 := -(2 * a * c)
  m03 := -(2 * a * d)
  m10 := -(2 * b * a)
  m11 := 1 - 2 * b * b
  m12 := -(2 * b * c)
  m13 := -(2 * b * d)
  m20 := -(2 * c * a)
  m21 := -(2 * c * b)
  m22 := 1 - 2 * c * c
  m23 := -(2 * c * d)
  m30 := -(2 * d * a)
  m31 := -(2 * d * b)
  m32 := -(2 * d * c)
  m33 := 1 - 2 * d * d

/-- XMVector3TransformNormal: apply the upper-left 3x3 block of m to the
row vector v, ignoring the translation row. -/
def XMVector3TransformNormal (v : Vec3) (m : Mat4) : Vec3 where
  x := v.x * m.m00 + v.y * m.m10 + v.z * m.m20
  y := v.x * m.m01 + v.y * m.m11 + v.z * m.m21
  z := v.x * m.m02 + v.y * m.m12 + v.z * m.m22

/-- One directional light: direction and strength. -/
structure Light where
  direction : Vec3
  strength : Vec3
  deriving Repr, DecidableEq

/-- Modelled from the spec: the PassConstants block (declared in
FrameResource.h, which is not under src/) with the fields UpdateMainPassCB
writes (lines 889-918): view and projection matrices with inverses, eye
position, render-target size and its reciprocal, near and far planes, total
and delta time, ambient light, and three directional lights. -/
structure PassConstants where
  view : Mat4
  invView : Mat4
  proj : Mat4
  invProj : Mat4
  viewProj : Mat4
  invViewProj : Mat4
  eyePosW : Vec3
  renderTargetSize : ℚ × ℚ
  invRenderTargetSize : ℚ × ℚ
  nearZ : ℚ
  farZ : ℚ
  totalTime : ℚ
  deltaTime : ℚ
  ambientLight : ℚ × ℚ × ℚ × ℚ
  lights : Fin 3 → Light

/-- StencilApp::UpdateReflectedPassCB (lines 925-943): copy the whole main
pass block, then replace each of the three light directions by the main
direction transformed as a normal by XMMatrixReflect of the plane
(0, 0, 1, 0). -/
def UpdateReflectedPassCB (main : PassConstants) : PassConstants :=
  { main with
    lights := fun i =>
      { main.lights i with
        direction :=
          XMVector3TransformNormal (main.lights i).direction
            (XMMatrixReflect 0 0 1 0) } }

/-- The two per-tick pass-constant writes: UpdateMainPassCB stores the main
block at slot 0 (line 922) and UpdateReflectedPassCB stores the derived
block at slot 1 (line 942). -/
def writePassCBs (main : PassConstants) (buf : Fin 2 → PassConstants) :
    Fin 2 → PassConstants :=
  Function.update (Function.update buf 0 main) 1 (UpdateReflectedPassCB main)

/-- Concrete application state for scenario S4: self id 1, local player 1,
remote player 2 moving with direction 1 since timestamp 100. -/
def s4MoveState : MoveState :=
  ⟨⟨0, 1, -10⟩, ⟨5, 1, -10⟩, 1, 1, ⟨0, 2, 1, 1, 100, ""⟩, 1⟩

/-- s4MoveState three dt = 0.1 ticks later, after the stop packet of
scenario S4 has been processed by the receiver. -/
def s4Stopped : MoveState :=
  { s4MoveState with
      skull2 := ⟨5, 13 / 10, -10⟩, lastPacket := ⟨0, 2, 0, 0, 120, ""⟩,
      movementState := 0 }

/-- A concrete application state used to instantiate the y-clamp
invariant. -/
def c7State : MoveState :=
  ⟨⟨0, 1, -10⟩, ⟨5, 1, -10⟩, 1, 1, ⟨0, 2, 1, 2, 50, ""⟩, 1⟩

/-! Helper lemmas about the decimal digit machinery. -/

theorem decDigitChar_isDigit (d : ℕ) (h : d < 10) :
    (decDigitChar d).isDigit = true := by
  interval_cases d <;> decide

theorem decDigitChar_toNat (d : ℕ) (h : d < 10) :
    (decDigitChar d).toNat = 48 + d := by
  interval_cases d <;> decide

theorem natToDecAux_zero (fuel : ℕ) (acc : List Char) :
    natToDecAux fuel 0 acc = acc := by
  cases fuel <;> rfl

theorem natToDecAux_append (fuel : ℕ) :
    ∀ (n : ℕ) (acc : List Char),
      natToDecAux fuel n acc = natToDecAux fuel n [] ++ acc := by
  induction fuel with
  | zero => intro n acc; simp [natToDecAux]
  | succ fuel ih =>
    intro n acc
    cases n with
    | zero => simp [natToDecAux]
    | succ m =>
      have h1 : natToDecAux (fuel + 1) (m + 1) acc
          = natToDecAux fuel ((m + 1) / 10)
              (decDigitChar ((m + 1) % 10) :: acc) := rfl
      have h2 : natToDecAux (fuel + 1) (m + 1) []
          = natToDecAux fuel ((m + 1) / 10)
              [decDigitChar ((m + 1) % 10)] := rfl
      rw [h1, h2, ih ((m + 1) / 10) (decDigitChar ((m + 1) % 10) :: acc),
        ih ((m + 1) / 10) [decDigitChar ((m + 1) % 10)], List.append_assoc]
      rfl

theorem natToDecAux_all_digits (fuel : ℕ) :
    ∀ (n : ℕ) (acc : List Char), acc.all Char.isDigit = true →
      (natToDecAux fuel n acc).all Char.isDigit = true := by
  induction fuel with
  | zero => intro n acc h; simpa [natToDecAux] using h
  | succ fuel ih =>
    intro n acc h
    cases n with
    | zero => simpa [natToDecAux] using h
    | succ m =>
      show (natToDecAux fuel ((m + 1) / 10)
        (decDigitChar ((m + 1) % 10) :: acc)).all Char.isDigit = true
      exact ih _ _ (by
        simp only [List.all_cons, Bool.and_eq_true]
        exact ⟨decDigitChar_isDigit _ (Nat.mod_lt _ (by norm_num)), h⟩)

theorem foldl_digits_natToDecAux (fuel : ℕ) :
    ∀ (n a : ℕ), n ≤ fuel → 0 < n →
      List.foldl (fun b c => 10 * b + (c.toNat - 48)) a (natToDecAux fuel n []) =
        a * 10 ^ (natToDecAux fuel n []).length + n := by
  induction fuel with
  | zero => intro n a hle hpos; omega
  | succ fuel ih =>
    intro n a hle hpos
    obtain ⟨m, rfl⟩ : ∃ m, n = m + 1 := ⟨n - 1, by omega⟩
    have h2 : natToDecAux (fuel + 1) (m + 1) []
        = natToDecAux fuel ((m + 1) / 10) [decDigitChar ((m + 1) % 10)] := rfl
    have htn : (decDigitChar ((m + 1) % 10)).toNat - 48 = (m + 1) % 10 := by
      rw [decDigitChar_toNat _ (Nat.mod_lt _ (by norm_num))]
      omega
    rw [h2, natToDecAux_append fuel ((m + 1) / 10) [decDigitChar ((m + 1) % 10)],
      List.foldl_append]
    by_cases hq : (m + 1) / 10 = 0
    · have hm : (m + 1) % 10 = m + 1 := by omega
      rw [hq, natToDecAux_zero]
      simp only [List.foldl_nil, List.foldl_cons, List.length_append,
        List.length_cons, List.length_nil, List.length_nil]
      rw [htn, hm]
      norm_num
      ring
    · have hq2 : (m + 1) / 10 ≤ fuel := by
        have := Nat.div_lt_self (by omega : 0 < m + 1) (by norm_num : 1 < 10)
        omega
      rw [ih ((m + 1) / 10) a hq2 (by omega)]
      simp only [List.foldl_cons, List.foldl_nil, List.length_append,
        List.length_cons, List.length_nil]
      rw [htn]
      have hdm : 10 * ((m + 1) / 10) + (m + 1) % 10 = m + 1 :=
        Nat.div_add_mod (m + 1) 10
      calc 10 * (a * 10 ^ (natToDecAux fuel ((m + 1) / 10) []).length
              + (m + 1) / 10) + (m + 1) % 10
          = a * (10 ^ (natToDecAux fuel ((m + 1) / 10) []).length * 10)
              + (10 * ((m + 1) / 10) + (m + 1) % 10) := by ring
        _ = a * 10 ^ ((natToDecAux fuel ((m + 1) / 10) []).length + 1)
              + (m + 1) := by rw [hdm, pow_succ]

theorem digitsToNat_natToDecimal (n : ℕ) :
    digitsToNat (natToDecimal n) = n := by
  by_cases h : n = 0
  · subst h; decide
  · unfold natToDecimal digitsToNat
    rw [if_neg h]
    rw [foldl_digits_natToDecAux n n 0 (le_refl n) (by omega)]
    simp

theorem natToDecimal_all_digits (n : ℕ) :
    (natToDecimal n).all Char.isDigit = true := by
  by_cases h : n = 0
  · subst h; decide
  · unfold natToDecimal
    rw [if_neg h]
    exact natToDecAux_all_digits n n [] rfl

theorem natToDecimal_single (v : ℕ) (h : v < 10) :
    natToDecimal v = [decDigitChar v] := by
  interval_cases v <;> rfl

theorem takeWhile_nil_of_headNot (t : List Char) (ht : headNotDigitB t = true) :
    t.takeWhile Char.isDigit = [] := by
  cases t with
  | nil => rfl
  | cons c cs =>
    simp only [headNotDigitB, Bool.not_eq_true'] at ht
    simp [List.takeWhile_cons, ht]

theorem takeWhile_append_headNot (u t : List Char)
    (ht : headNotDigitB t = true) :
    (u ++ t).takeWhile Char.isDigit = u.takeWhile Char.isDigit := by
  induction u with
  | nil => simpa using takeWhile_nil_of_headNot t ht
  | cons c cs ih =>
    by_cases hc : c.isDigit <;> simp [List.takeWhile_cons, hc, ih]

theorem takeWhile_all_append (u t : List Char)
    (hu : u.all Char.isDigit = true) (ht : headNotDigitB t = true) :
    (u ++ t).takeWhile Char.isDigit = u := by
  rw [List.takeWhile_append_of_pos (by simpa [List.all_eq_true] using hu),
    takeWhile_nil_of_headNot t ht, List.append_nil]

theorem natToDecAux_succ_ne_nil (fuel m : ℕ) :
    natToDecAux (fuel + 1) (m + 1) [] ≠ [] := by
  have h2 : natToDecAux (fuel + 1) (m + 1) []
      = natToDecAux fuel ((m + 1) / 10) [] ++ [decDigitChar ((m + 1) % 10)] := by
    rw [show natToDecAux (fuel + 1) (m + 1) []
        = natToDecAux fuel ((m + 1) / 10) [decDigitChar ((m + 1) % 10)] from rfl,
      natToDecAux_append]
  rw [h2]
  simp

theorem natToDecimal_ne_nil (n : ℕ) : natToDecimal n ≠ [] := by
  unfold natToDecimal
  by_cases h : n = 0
  · simp [h]
  · rw [if_neg h]
    obtain ⟨m, rfl⟩ : ∃ m, n = m + 1 := ⟨n - 1, by omega⟩
    exact natToDecAux_succ_ne_nil m m

theorem stoiAt_cons_succ (c : Char) (l : List Char) (i : ℕ) :
    stoiAt (c :: l) (i + 1) = stoiAt l i := by
  simp [stoiAt]

theorem stoiAt_decDigit_head (v : ℕ) (h : v < 10) (l : List Char) :
    stoiAt (decDigitChar v :: l) 0 = some v := by
  simp [stoiAt, decDigitChar_isDigit v h, decDigitChar_toNat v h]

theorem parseFields_name (f0 f1 f2 f3 : Option ℕ) (ts : List Char)
    (p : Packet) :
    ((parseFields f0 f1 f2 f3 ts p).1).name = p.name := by
  cases f0 <;> cases f1 <;> cases f2 <;> cases f3 <;>
    simp only [parseFields] <;>
    first
      | rfl
      | (split_ifs <;> rfl)

theorem parseFields_error_iff (f0 f1 f2 f3 : Option ℕ) (ts : List Char)
    (p : Packet) :
    (parseFields f0 f1 f2 f3 ts p).2 = true ↔
      (f0 = none ∨ f1 = none ∨ f2 = none ∨ f3 = none ∨ ts = [] ∨
        ¬ digitsToNat ts < 2 ^ 32) := by
  cases f0 <;> cases f1 <;> cases f2 <;> cases f3 <;>
    simp only [parseFields] <;>
    first
      | (simp; done)
      | (split_ifs <;> simp_all)

theorem leadingDigits4_eq_true_iff (buf : List Char) :
    leadingDigits4 buf = true ↔
      (stoiAt buf 0 ≠ none ∧ stoiAt buf 1 ≠ none ∧ stoiAt buf 2 ≠ none ∧
        stoiAt buf 3 ≠ none) := by
  rcases buf with _ | ⟨c0, _ | ⟨c1, _ | ⟨c2, _ | ⟨c3, rest⟩⟩⟩⟩ <;>
    simp [leadingDigits4, stoiAt]

/-- Claim C1, amended: for a packet whose packetType, playerId, movementState
and direction are single decimal digits and whose timestamp fits in 32 bits,
and an application name that is empty or starts with a non-digit byte,
decoding the encoded wire form restores the five numeric fields into the
target packet and succeeds; the target packet's name field keeps its prior
value, because ParsePacket never assigns name and SendPacket appends the
application name rather than packet.name. -/
theorem sendParse_roundtrip_numeric_fields (p q : Packet) (appName : List Char)
    (h0 : p.packetType < 10) (h1 : p.playerId < 10) (h2 : p.movementState < 10)
    (h3 : p.direction < 10) (h4 : p.timestamp < 2 ^ 32)
    (h5 : headNotDigitB appName = true) :
    ParsePacket (SendPacketBytes p appName) q =
      ({ q with packetType := p.packetType, playerId := p.playerId,
                movementState := p.movementState, direction := p.direction,
                timestamp := p.timestamp }, false) := by
  have e : SendPacketBytes p appName =
      decDigitChar p.packetType :: decDigitChar p.playerId ::
        decDigitChar p.movementState :: decDigitChar p.direction ::
          (natToDecimal p.timestamp ++ appName) := by
    unfold SendPacketBytes
    rw [natToDecimal_single _ h0, natToDecimal_single _ h1,
      natToDecimal_single _ h2, natToDecimal_single _ h3]
    simp
  have hts : tsRun (decDigitChar p.packetType :: decDigitChar p.playerId ::
      decDigitChar p.movementState :: decDigitChar p.direction ::
        (natToDecimal p.timestamp ++ appName)) = natToDecimal p.timestamp := by
    unfold tsRun
    simp only [List.drop_succ_cons, List.drop_zero]
    exact takeWhile_all_append _ _ (natToDecimal_all_digits _) h5
  rw [e]
  unfold ParsePacket
  rw [hts, stoiAt_decDigit_head _ h0, stoiAt_cons_succ, stoiAt_cons_succ,
    stoiAt_cons_succ, stoiAt_cons_succ, stoiAt_cons_succ, stoiAt_cons_succ,
    stoiAt_decDigit_head _ h1, stoiAt_decDigit_head _ h2,
    stoiAt_decDigit_head _ h3]
  simp only [parseFields]
  rw [if_neg (natToDecimal_ne_nil _),
    if_pos (by rw [digitsToNat_natToDecimal]; exact h4),
    digitsToNat_natToDecimal]

/-- Witness for C1 at the concrete packet of scenario S5. -/
theorem sendParse_roundtrip_numeric_fields_witness :
    ParsePacket (SendPacketBytes ⟨0, 2, 1, 5, 12345, "bob"⟩ ("bob".data))
        ⟨0, 0, 0, 0, 0, ""⟩ =
      (⟨0, 2, 1, 5, 12345, ""⟩, false) :=
  sendParse_roundtrip_numeric_fields ⟨0, 2, 1, 5, 12345, "bob"⟩
    ⟨0, 0, 0, 0, 0, ""⟩ ("bob".data) (by decide) (by decide) (by decide)
    (by decide) (by decide) (by decide)

/-- Counterexample to C1 as stated: encoding the S5 packet (with the
application name also set to bob) does give the bytes 021512345bob, but
decoding them into a fresh packet does not return the original packet - the
decoded name is the fresh packet's name, not bob. -/
theorem sendParse_roundtrip_name_counterexample :
    SendPacketBytes ⟨0, 2, 1, 5, 12345, "bob"⟩ ("bob".data) =
        ("021512345bob".data) ∧
      (ParsePacket (SendPacketBytes ⟨0, 2, 1, 5, 12345, "bob"⟩ ("bob".data))
          ⟨0, 0, 0, 0, 0, ""⟩).1 ≠ ⟨0, 2, 1, 5, 12345, "bob"⟩ := by
  constructor
  · decide
  · decide

theorem popMin_mem (q : List Packet) :
    ∀ m r, popMin q = some (m, r) → m ∈ q := by
  induction q with
  | nil => intro m r h; simp [popMin] at h
  | cons p rest ih =>
    intro m r h
    cases hr : popMin rest with
    | none =>
      simp only [popMin, hr, Option.some.injEq, Prod.mk.injEq] at h
      exact h.1 ▸ List.mem_cons_self p rest
    | some mr =>
      obtain ⟨m0, r0⟩ := mr
      simp only [popMin, hr] at h
      by_cases hc : packetComparator p m0
      · rw [if_pos hc] at h
        simp only [Option.some.injEq, Prod.mk.injEq] at h
        exact h.1 ▸ List.mem_cons_of_mem p (ih m0 r0 hr)
      · rw [if_neg hc] at h
        simp only [Option.some.injEq, Prod.mk.injEq] at h
        exact h.1 ▸ List.mem_cons_self p rest

theorem popMin_rest_mem (q : List Packet) :
    ∀ m r, popMin q = some (m, r) → ∀ x ∈ r, x ∈ q := by
  induction q with
  | nil => intro m r h; simp [popMin] at h
  | cons p rest ih =>
    intro m r h x hx
    cases hr : popMin rest with
    | none =>
      simp only [popMin, hr, Option.some.injEq, Prod.mk.injEq] at h
      rw [← h.2] at hx
      simp at hx
    | some mr =>
      obtain ⟨m0, r0⟩ := mr
      simp only [popMin, hr] at h
      by_cases hc : packetComparator p m0
      · rw [if_pos hc] at h
        simp only [Option.some.injEq, Prod.mk.injEq] at h
        rw [← h.2] at hx
        rcases List.mem_cons.mp hx with h3 | h3
        · exact h3 ▸ List.mem_cons_self p rest
        · exact List.mem_cons_of_mem p (ih m0 r0 hr x h3)
      · rw [if_neg hc] at h
        simp only [Option.some.injEq, Prod.mk.injEq] at h
        rw [← h.2] at hx
        exact List.mem_cons_of_mem p hx

theorem popMin_le (q : List Packet) :
    ∀ m r, popMin q = some (m, r) → ∀ x ∈ q, m.timestamp ≤ x.timestamp := by
  induction q with
  | nil => intro m r h; simp [popMin] at h
  | cons p rest ih =>
    intro m r h x hx
    cases hr : popMin rest with
    | none =>
      have hrest : rest = [] := by
        cases rest with
        | nil => rfl
        | cons a l =>
          exfalso
          cases h2 : popMin l with
          | none => simp [popMin, h2] at hr
          | some v =>
            obtain ⟨a2, l2⟩ := v
            simp only [popMin, h2] at hr
            by_cases hc2 : packetComparator a a2
            · rw [if_pos hc2] at hr; exact Option.noConfusion hr
            · rw [if_neg hc2] at hr; exact Option.noConfusion hr
      simp only [popMin, hr, Option.some.injEq, Prod.mk.injEq] at h
      subst hrest
      rcases List.mem_cons.mp hx with h3 | h3
      · subst h3; rw [← h.1]
      · simp at h3
    | some mr =>
      obtain ⟨m0, r0⟩ := mr
      simp only [popMin, hr] at h
      by_cases hc : packetComparator p m0
      · rw [if_pos hc] at h
        simp only [Option.some.injEq, Prod.mk.injEq] at h
        have hcmp : m0.timestamp ≤ p.timestamp := by
          unfold packetComparator at hc
          simp only [decide_eq_true_eq] at hc
          omega
        rcases List.mem_cons.mp hx with h3 | h3
        · rw [← h.1, h3]; exact hcmp
        · rw [← h.1]; exact ih m0 r0 hr x h3
      · rw [if_neg hc] at h
        simp only [Option.some.injEq, Prod.mk.injEq] at h
        have hcmp : p.timestamp ≤ m0.timestamp := by
          unfold packetComparator at hc
          simp only [decide_eq_true_eq, not_lt, gt_iff_lt] at hc
          exact hc
        rcases List.mem_cons.mp hx with h3 | h3
        · rw [← h.1, h3]
        · rw [← h.1]
          exact le_trans hcmp (ih m0 r0 hr x h3)

/-- Claim C2, amended: a pop from a priority queue ordered by
packetComparator does return a packet whose timestamp is at most that of
every packet still in the queue, and successive pops are in non-decreasing
timestamp order; however, the receive path never pushes received packets
onto that queue - it overwrites lastPacket under the mutex, so received
packets take effect in arrival order, not timestamp order. -/
theorem popMin_timestamp_le (q : List Packet) (m : Packet) (r : List Packet)
    (h : popMin q = some (m, r)) :
    (∀ x ∈ r, m.timestamp ≤ x.timestamp) ∧
      ∀ m2 r2, popMin r = some (m2, r2) → m.timestamp ≤ m2.timestamp := by
  constructor
  · intro x hx
    exact popMin_le q m r h x (popMin_rest_mem q m r h x hx)
  · intro m2 r2 h2
    exact popMin_le q m r h m2 (popMin_rest_mem q m r h m2 (popMin_mem r m2 r2 h2))

/-- Witness for C2 on the out-of-order pair of scenario S6. -/
theorem popMin_timestamp_le_witness :
    (∀ x ∈ [(⟨0, 2, 1, 1, 200, ""⟩ : Packet)],
        (⟨0, 2, 1, 1, 100, ""⟩ : Packet).timestamp ≤ x.timestamp) ∧
      ∀ m2 r2, popMin [(⟨0, 2, 1, 1, 200, ""⟩ : Packet)] = some (m2, r2) →
        (⟨0, 2, 1, 1, 100, ""⟩ : Packet).timestamp ≤ m2.timestamp :=
  popMin_timestamp_le [⟨0, 2, 1, 1, 200, ""⟩, ⟨0, 2, 1, 1, 100, ""⟩]
    ⟨0, 2, 1, 1, 100, ""⟩ [⟨0, 2, 1, 1, 200, ""⟩] (by decide)

/-- Counterexample to C2 as stated: when datagrams with timestamps 200 and
100 arrive in that order, the receiver applies them in arrival order - the
sequence of packets made current is 200 then 100, which is not ascending -
because StartAsyncMessageReceiver writes lastPacket directly and never uses
the priority queue. -/
theorem receiver_consumes_in_arrival_order :
    (receiverTrace ⟨⟨0, 0, 0, 0, 0, ""⟩, 0⟩
        [("0211200".data), ("0211100".data)]).map Packet.timestamp
      = [200, 100] ∧ ¬ ([200, 100] : List ℕ).Sorted (· ≤ ·) := by
  constructor
  · decide
  · decide

/-- Claim C3, amended: decoding fails exactly when the buffer has fewer than
4 leading decimal-digit bytes or its timestamp portion is empty or exceeds
the unsigned 32-bit range; but on failure the packet is not dropped with the
state unchanged: the fields parsed before the failing byte have already been
written into the shared lastPacket, and the exception leaves the receive
loop instead of continuing it. -/
theorem parsePacket_error_iff_and_receiver_exit (buf : List Char)
    (p : Packet) :
    ((ParsePacket buf p).2 = true ↔
      ¬ (leadingDigits4 buf = true ∧ tsRun buf ≠ [] ∧
          digitsToNat (tsRun buf) < 2 ^ 32)) ∧
      ∀ s : RecvState, (ParsePacket buf s.lastPacket).2 = true →
        receiverStep s buf
          = ({ s with lastPacket := (ParsePacket buf s.lastPacket).1 }, true) := by
  constructor
  · rw [ParsePacket, parseFields_error_iff, leadingDigits4_eq_true_iff]
    tauto
  · intro s herr
    simp [receiverStep, herr]

/-- Witness for C3 on the malformed buffer 12x: the receiver iteration
stores the two successfully parsed fields into lastPacket and exits. -/
theorem parsePacket_error_receiver_witness :
    receiverStep ⟨⟨9, 9, 9, 9, 9, "z"⟩, 0⟩ ("12x".data) =
      (⟨⟨1, 2, 9, 9, 9, "z"⟩, 0⟩, true) :=
  (parsePacket_error_iff_and_receiver_exit ("12x".data) ⟨9, 9, 9, 9, 9, "z"⟩).2
    ⟨⟨9, 9, 9, 9, 9, "z"⟩, 0⟩ (by decide)

/-- Counterexample to C3 as stated: on the malformed buffer 12x the parse
fails, yet the output packet is not left unchanged - packetType and playerId
have already been assigned. -/
theorem parsePacket_failure_mutates_lastPacket :
    (ParsePacket ("12x".data) ⟨0, 0, 0, 0, 0, ""⟩).2 = true ∧
      (ParsePacket ("12x".data) ⟨0, 0, 0, 0, 0, ""⟩).1 ≠ ⟨0, 0, 0, 0, 0, ""⟩ := by
  constructor
  · decide
  · decide

/-- Claim C10: ParsePacket assigns only the five numeric fields - the output
packet's name always keeps its prior value - and the bytes of the buffer
after the timestamp digit run have no effect on the result. -/
theorem parsePacket_name_and_trailing_bytes :
    (∀ (buf : List Char) (p : Packet), ((ParsePacket buf p).1).name = p.name) ∧
      ∀ (s t u : List Char) (p : Packet), 4 ≤ s.length →
        headNotDigitB t = true → headNotDigitB u = true →
        ParsePacket (s ++ t) p = ParsePacket (s ++ u) p := by
  constructor
  · intro buf p
    exact parseFields_name _ _ _ _ _ _
  · intro s t u p hlen ht hu
    have hst : ∀ (w : List Char) (i : ℕ), i < 4 →
        stoiAt (s ++ w) i = stoiAt s i := by
      intro w i hi
      unfold stoiAt
      rw [List.getElem?_append, if_pos (by omega)]
    have hdrop : ∀ w : List Char, (s ++ w).drop 4 = s.drop 4 ++ w := by
      intro w
      rw [List.drop_append_eq_append_drop, Nat.sub_eq_zero_of_le hlen,
        List.drop_zero]
    have hts : tsRun (s ++ t) = tsRun (s ++ u) := by
      unfold tsRun
      rw [hdrop t, hdrop u, takeWhile_append_headNot _ _ ht,
        takeWhile_append_headNot _ _ hu]
    unfold ParsePacket
    rw [hst t 0 (by norm_num), hst t 1 (by norm_num), hst t 2 (by norm_num),
      hst t 3 (by norm_num), hst u 0 (by norm_num), hst u 1 (by norm_num),
      hst u 2 (by norm_num), hst u 3 (by norm_num), hts]

/-- Witness for C10: a concrete buffer keeps the target packet's name, and
two different trailers after the timestamp digits decode identically. -/
theorem parsePacket_name_and_trailing_bytes_witness :
    ((ParsePacket ("0211200xyz".data) ⟨7, 7, 7, 7, 7, "keep"⟩).1).name = "keep"
      ∧ ParsePacket (("0211200".data) ++ ("abc".data)) ⟨0, 0, 0, 0, 0, ""⟩
        = ParsePacket (("0211200".data) ++ ("xy".data)) ⟨0, 0, 0, 0, 0, ""⟩ :=
  ⟨parsePacket_name_and_trailing_bytes.1 ("0211200xyz".data)
      ⟨7, 7, 7, 7, 7, "keep"⟩,
    parsePacket_name_and_trailing_bytes.2 ("0211200".data) ("abc".data)
      ("xy".data) ⟨0, 0, 0, 0, 0, ""⟩ (by decide) (by decide) (by decide)⟩

/-- Claim C4, amended: DetermineDirection returns 7 exactly when S and A are
held and W is not (when W is also held, the W-combination cases 5 and 6 take
priority), and the movement integrator, given a packet with movementState 1
and direction 7 from a non-self player, moves that player's skull by
-1.0 * dt in x and by -1.0 * dt in y with the y result clamped at 0. -/
theorem direction_seven_encoding_and_integration (A D W S : Bool)
    (s : MoveState) (p : Packet) (dt : ℚ)
    (hm : p.movementState = 1) (hd : p.direction = 7)
    (hp : p.playerId ≠ s.id) :
    (DetermineDirection A D W S = 7 ↔ (S = true ∧ A = true ∧ W = false)) ∧
      (if p.playerId = 1 then (updatePositionPacket s p dt).skull1
        else (updatePositionPacket s p dt).skull2) =
        { x := (if p.playerId = 1 then s.skull1 else s.skull2).x - dt,
          y := max ((if p.playerId = 1 then s.skull1 else s.skull2).y - dt) 0,
          z := (if p.playerId = 1 then s.skull1 else s.skull2).z } := by
  constructor
  · revert A D W S
    decide
  · unfold updatePositionPacket
    rw [if_pos (show p.movementState = 1 ∧ p.playerId ≠ s.id from ⟨hm, hp⟩)]
    by_cases h1 : p.playerId = 1
    · simp only [if_pos h1, hd]
      simp [dirDelta, sub_eq_add_neg]
    · simp only [if_neg h1, hd]
      simp [dirDelta, sub_eq_add_neg]

/-- Witness for C4: player 2 at (5, 1, -10) moving with direction 7 for one
dt = 0.1 tick lands at (4.9, 0.9, -10), and the direction-7 encoding holds
at S and A held without W. -/
theorem direction_seven_witness :
    ((DetermineDirection true false false true = 7) ↔
        (true = true ∧ true = true ∧ false = false)) ∧
      (updatePositionPacket
          ⟨⟨0, 1, -10⟩, ⟨5, 1, -10⟩, 1, 1, ⟨0, 0, 0, 0, 0, ""⟩, 0⟩
          ⟨0, 2, 1, 7, 100, ""⟩ (1 / 10)).skull2 =
        ⟨5 - 1 / 10, max (1 - 1 / 10) 0, -10⟩ :=
  direction_seven_encoding_and_integration true false false true
    ⟨⟨0, 1, -10⟩, ⟨5, 1, -10⟩, 1, 1, ⟨0, 0, 0, 0, 0, ""⟩, 0⟩
    ⟨0, 2, 1, 7, 100, ""⟩ (1 / 10) rfl rfl (by decide)

/-- Counterexample to C4 as stated: with S and A both held together with W,
DetermineDirection returns 6 (the W and A case fires first), not 7. -/
theorem determineDirection_SA_with_W_ne_seven :
    DetermineDirection true false true true = 6 ∧
      DetermineDirection true false true true ≠ 7 := by
  constructor
  · decide
  · decide

/-- Claim C5, amended: while the cached movementState is 1 and the cached
packet is a moving packet from a non-self player, every tick moves that
player's skull by the direction's (dx, dy) scaled by dt and then clamps y at
0 (so the y translation is withheld when it would go below ground), leaving
the cached packet and movementState unchanged for the next tick; when the
cached movementState is not 1 (after a stop packet), a tick never moves the
remote skull. -/
theorem sticky_integrator_per_tick (s : MoveState) (dt : ℚ) :
    (s.movementState = 1 → s.lastPacket.movementState = 1 →
      s.lastPacket.playerId ≠ s.id →
      (ContinuousMovement s dt).lastPacket = s.lastPacket ∧
      (ContinuousMovement s dt).movementState = 1 ∧
      (if s.lastPacket.playerId = 1 then (ContinuousMovement s dt).skull1
        else (ContinuousMovement s dt).skull2) =
        { x := (if s.lastPacket.playerId = 1 then s.skull1 else s.skull2).x
            + (dirDelta s.lastPacket.direction dt).1,
          y := max ((if s.lastPacket.playerId = 1 then s.skull1
            else s.skull2).y + (dirDelta s.lastPacket.direction dt).2) 0,
          z := (if s.lastPacket.playerId = 1 then s.skull1
            else s.skull2).z }) ∧
    (s.movementState ≠ 1 →
      (ContinuousMovement s dt).lastPacket = s.lastPacket ∧
      (ContinuousMovement s dt).movementState = s.movementState ∧
      (s.player = 1 → (ContinuousMovement s dt).skull2 = s.skull2) ∧
      (s.player ≠ 1 → (ContinuousMovement s dt).skull1 = s.skull1)) := by
  constructor
  · intro h1 h2 h3
    unfold ContinuousMovement
    rw [if_pos h1]
    unfold updatePositionPacket
    rw [if_pos (show s.lastPacket.movementState = 1 ∧
      s.lastPacket.playerId ≠ s.id from ⟨h2, h3⟩)]
    by_cases h4 : s.lastPacket.playerId = 1
    · simp only [if_pos h4]
      simp [h1]
    · simp only [if_neg h4]
      simp [h1]
  · intro h1
    unfold ContinuousMovement
    rw [if_neg h1]
    unfold updatePositionNoMove
    by_cases h4 : s.player = 1
    · simp only [if_pos h4]
      simp [h4]
    · simp only [if_neg h4]
      simp [h4]

/-- Witness for C5 on scenario S4: one tick advances player 2 from y = 1 to
y = 1.1 with the cached state untouched; three ticks reach y = 1.3, and once
the stop packet is cached a further tick leaves the skull at y = 1.3. -/
theorem sticky_integrator_witness :
    ((ContinuousMovement s4MoveState (1 / 10)).lastPacket
        = s4MoveState.lastPacket ∧
      (ContinuousMovement s4MoveState (1 / 10)).movementState = 1 ∧
      (ContinuousMovement s4MoveState (1 / 10)).skull2 =
        ⟨5 + 0, max (1 + 1 / 10) 0, -10⟩) ∧
      ((ContinuousMovement (ContinuousMovement (ContinuousMovement
            s4MoveState (1 / 10)) (1 / 10)) (1 / 10)).skull2
          = ⟨5, 13 / 10, -10⟩ ∧
        (ContinuousMovement s4Stopped (1 / 10)).skull2 = ⟨5, 13 / 10, -10⟩) :=
  ⟨(sticky_integrator_per_tick s4MoveState (1 / 10)).1 rfl rfl (by decide),
    by
      have e1 : ContinuousMovement s4MoveState (1 / 10)
          = ⟨⟨0, 1, -10⟩, ⟨5, 11 / 10, -10⟩, 1, 1, ⟨0, 2, 1, 1, 100, ""⟩, 1⟩ := by
        norm_num [s4MoveState, ContinuousMovement, updatePositionPacket,
          dirDelta, max_eq_left]
      have e2 : ContinuousMovement
          ⟨⟨0, 1, -10⟩, ⟨5, 11 / 10, -10⟩, 1, 1, ⟨0, 2, 1, 1, 100, ""⟩, 1⟩
            (1 / 10)
          = ⟨⟨0, 1, -10⟩, ⟨5, 12 / 10, -10⟩, 1, 1, ⟨0, 2, 1, 1, 100, ""⟩, 1⟩ := by
        norm_num [ContinuousMovement, updatePositionPacket, dirDelta,
          max_eq_left]
      have e3 : ContinuousMovement
          ⟨⟨0, 1, -10⟩, ⟨5, 12 / 10, -10⟩, 1, 1, ⟨0, 2, 1, 1, 100, ""⟩, 1⟩
            (1 / 10)
          = ⟨⟨0, 1, -10⟩, ⟨5, 13 / 10, -10⟩, 1, 1, ⟨0, 2, 1, 1, 100, ""⟩, 1⟩ := by
        norm_num [ContinuousMovement, updatePositionPacket, dirDelta,
          max_eq_left]
      refine ⟨by rw [e1, e2, e3], ?_⟩
      norm_num [s4Stopped, s4MoveState, ContinuousMovement,
        updatePositionNoMove, max_eq_left]⟩

/-- Counterexample to C5 as stated: a remote player moving with direction 2
(-y only) whose skull already rests at y = 0 is not translated by -1.0 * dt
on the next tick - the clamp keeps the position unchanged. -/
theorem moving_tick_clamped_no_translation :
    (ContinuousMovement ⟨⟨0, 1, -10⟩, ⟨5, 0, -10⟩, 1, 1,
        ⟨0, 2, 1, 2, 100, ""⟩, 1⟩ (1 / 10)).skull2 = ⟨5, 0, -10⟩ ∧
      (0 : ℚ) - 1 / 10 ≠ 0 := by
  constructor
  · norm_num [ContinuousMovement, updatePositionPacket, dirDelta,
      max_eq_right]
  · norm_num

/-- Claim C6 (code bug): at the just-stopped-moving input - the player was
moving with previous direction 3 (D held) and now releases every key - the
encoder emits a packet with movementState = 1 and direction = 0 instead of
the stop packet with movementState = 0: directionChanged is true because the
new direction 0 differs from the previous 3, and that branch shadows the
justStoppedMoving branch. -/
theorem justStopped_emits_movementState_one :
    OnKeyboardInputEmission true 3 false false false false 1 555 =
        some ⟨0, 1, 1, 0, 555, ""⟩ ∧
      (⟨0, 1, 1, 0, 555, ""⟩ : Packet).movementState ≠ 0 := by
  constructor
  · decide
  · decide

/-- Claim C7: every integration step keeps both skulls' y coordinates
non-negative: the keyboard path and the moving-packet path clamp the mutated
skull's y to at least 0 before returning, the no-movement path re-clamps the
local skull, and no path lowers an untouched skull. -/
theorem y_nonneg_after_integration_steps (s : MoveState) (A D W S : Bool)
    (dt : ℚ) (p : Packet)
    (h1 : 0 ≤ s.skull1.y) (h2 : 0 ≤ s.skull2.y) :
    (0 ≤ (updatePositionKeys s A D W S dt).skull1.y ∧
      0 ≤ (updatePositionKeys s A D W S dt).skull2.y) ∧
    (0 ≤ (updatePositionPacket s p dt).skull1.y ∧
      0 ≤ (updatePositionPacket s p dt).skull2.y) ∧
    (0 ≤ (updatePositionNoMove s).skull1.y ∧
      0 ≤ (updatePositionNoMove s).skull2.y) ∧
    (0 ≤ (ContinuousMovement s dt).skull1.y ∧
      0 ≤ (ContinuousMovement s dt).skull2.y) := by
  refine ⟨⟨?_, ?_⟩, ⟨?_, ?_⟩, ⟨?_, ?_⟩, ?_, ?_⟩ <;>
    simp only [ContinuousMovement, updatePositionKeys, updatePositionPacket,
      updatePositionNoMove] <;>
    split_ifs <;>
    simp [le_max_iff, h1, h2]

/-- Witness for C7 at a concrete state with both skulls at y = 1. -/
theorem y_nonneg_witness :
    (0 ≤ (updatePositionKeys c7State true false false true (1 / 2)).skull1.y ∧
      0 ≤ (updatePositionKeys c7State true false false true (1 / 2)).skull2.y) ∧
    (0 ≤ (updatePositionPacket c7State ⟨0, 2, 1, 7, 60, ""⟩ (1 / 2)).skull1.y ∧
      0 ≤ (updatePositionPacket c7State ⟨0, 2, 1, 7, 60, ""⟩ (1 / 2)).skull2.y) ∧
    (0 ≤ (updatePositionNoMove c7State).skull1.y ∧
      0 ≤ (updatePositionNoMove c7State).skull2.y) ∧
    (0 ≤ (ContinuousMovement c7State (1 / 2)).skull1.y ∧
      0 ≤ (ContinuousMovement c7State (1 / 2)).skull2.y) :=
  y_nonneg_after_integration_steps c7State true false false true (1 / 2)
    ⟨0, 2, 1, 7, 60, ""⟩ (by decide) (by decide)

/-- Claim C8: a mutation of the logical world transform resets the dirty
counter to gNumFrameResources = 3; each tick that consumes a frame slot with
a positive counter writes the latest world constants into that slot and
decrements the counter by exactly one; hence after the three consecutive
frame slots that follow a mutation the counter is 0 and every frame slot
holds the latest constants. -/
theorem dirty_counter_flush_after_three_frames {α : Type} (w : α)
    (r : RItemCB α) (i : Fin gNumFrameResources) :
    (mutateWorld w r).numFramesDirty = gNumFrameResources ∧
      (updateObjectCB (i + 2) (updateObjectCB (i + 1)
        (updateObjectCB i (mutateWorld w r)))).numFramesDirty = 0 ∧
      ∀ j, (updateObjectCB (i + 2) (updateObjectCB (i + 1)
        (updateObjectCB i (mutateWorld w r)))).slots j = w := by
  refine ⟨rfl, ?_, ?_⟩
  · fin_cases i <;>
      simp [updateObjectCB, mutateWorld, gNumFrameResources, Function.update]
  · intro j
    fin_cases i <;> fin_cases j <;>
      simp [updateObjectCB, mutateWorld, gNumFrameResources, Function.update]

/-- Claim C9: each tick, the pass block written to slot 1 agrees with the
block written to slot 0 on every field except the three light directions,
and each slot-1 light direction equals the slot-0 direction transformed as a
normal by the reflection matrix about the plane z = 0, which negates the z
component and keeps x and y. -/
theorem reflected_pass_differs_only_in_light_directions
    (main : PassConstants) (buf : Fin 2 → PassConstants) :
    (writePassCBs main buf 1).view = (writePassCBs main buf 0).view ∧
    (writePassCBs main buf 1).invView = (writePassCBs main buf 0).invView ∧
    (writePassCBs main buf 1).proj = (writePassCBs main buf 0).proj ∧
    (writePassCBs main buf 1).invProj = (writePassCBs main buf 0).invProj ∧
    (writePassCBs main buf 1).viewProj = (writePassCBs main buf 0).viewProj ∧
    (writePassCBs main buf 1).invViewProj
      = (writePassCBs main buf 0).invViewProj ∧
    (writePassCBs main buf 1).eyePosW = (writePassCBs main buf 0).eyePosW ∧
    (writePassCBs main buf 1).renderTargetSize
      = (writePassCBs main buf 0).renderTargetSize ∧
    (writePassCBs main buf 1).invRenderTargetSize
      = (writePassCBs main buf 0).invRenderTargetSize ∧
    (writePassCBs main buf 1).nearZ = (writePassCBs main buf 0).nearZ ∧
    (writePassCBs main buf 1).farZ = (writePassCBs main buf 0).farZ ∧
    (writePassCBs main buf 1).totalTime
      = (writePassCBs main buf 0).totalTime ∧
    (writePassCBs main buf 1).deltaTime
      = (writePassCBs main buf 0).deltaTime ∧
    (writePassCBs main buf 1).ambientLight
      = (writePassCBs main buf 0).ambientLight ∧
    (∀ i, ((writePassCBs main buf 1).lights i).strength
      = ((writePassCBs main buf 0).lights i).strength) ∧
    (∀ i, ((writePassCBs main buf 1).lights i).direction
      = XMVector3TransformNormal ((writePassCBs main buf 0).lights i).direction
          (XMMatrixReflect 0 0 1 0)) ∧
    ∀ i, ((writePassCBs main buf 1).lights i).direction
      = ⟨((writePassCBs main buf 0).lights i).direction.x,
         ((writePassCBs main buf 0).lights i).direction.y,
         -(((writePassCBs main buf 0).lights i).direction.z)⟩ := by
  have h0 : writePassCBs main buf 0 = main := by
    unfold writePassCBs
    rw [Function.update_noteq (by decide), Function.update_same]
  have h1 : writePassCBs main buf 1 = UpdateReflectedPassCB main := by
    unfold writePassCBs
    rw [Function.update_same]
  rw [h0, h1]
  unfold UpdateReflectedPassCB
  refine ⟨rfl, rfl, rfl, rfl, rfl, rfl, rfl, rfl, rfl, rfl, rfl, rfl, rfl,
    rfl, fun i => rfl, fun i => rfl, fun i => ?_⟩
  simp only [XMVector3TransformNormal, XMMatrixReflect, Vec3.mk.injEq]
  refine ⟨by ring, by ring, by ring⟩

end StencilDemo
